import Mathlib

/-!
Verification development for the e-commerce backend (webhook.py and the
helper scripts).  Python functions are shallowly embedded as Lean
definitions: SQLite rows become structures, table scans become list
recursions, floats stored in the REAL columns become exact rationals, and
fallible Python code (code that can raise) returns `Except`/`Option`.
Cell values coming from the spreadsheet API are modelled as strings and
Python string scanning is modelled over ASCII character classes
(`str.strip` on the ASCII whitespace set, the regex classes `\d` and
`[a-z0-9]` as their ASCII ranges); the special float literals
`inf`/`nan` are outside the model.
-/

deriving instance DecidableEq for Except

namespace Shop

/-- Python truthiness fallback `a or b` for strings: the empty string is
falsy, so `a or b` yields `b` exactly when `a` is empty. -/
def pyOr (a b : String) : String := if a = "" then b else a

/-- Characters removed by Python `str.strip()` (ASCII whitespace). -/
def isPyWS (c : Char) : Bool :=
  c = ' ' || c = '\t' || c = '\n' || c = '\r' || c = Char.ofNat 11 || c = Char.ofNat 12

/-- Python `str.strip()` on a character list: drop leading and trailing
whitespace. -/
def pyStripChars (l : List Char) : List Char :=
  ((l.dropWhile isPyWS).reverse.dropWhile isPyWS).reverse

/-- Python `str.strip()`. -/
def pyStrip (s : String) : String := ⟨pyStripChars s.data⟩

/-- Membership in the regex class `[a-z0-9]` of `slugify`'s pattern. -/
def isAlnumLower (c : Char) : Bool :=
  (48 ≤ c.toNat && c.toNat ≤ 57) || (97 ≤ c.toNat && c.toNat ≤ 122)

/-- The substitution `re.sub(r'[^a-z0-9]+', '-', s)`: every maximal run of
characters outside `[a-z0-9]` is replaced by a single hyphen.  The flag
records whether the previous character belonged to a run being collapsed. -/
def collapse (prevDash : Bool) : List Char → List Char
  | [] => []
  | c :: cs =>
    if isAlnumLower c then c :: collapse false cs
    else if prevDash then collapse true cs
    else '-' :: collapse true cs

/-- The hyphen test used by `str.strip('-')`. -/
def isDash (c : Char) : Bool := c == '-'

/-- Python `str.strip('-')` on a character list. -/
def stripDashChars (l : List Char) : List Char :=
  ((l.dropWhile isDash).reverse.dropWhile isDash).reverse

/-- Character-list core of `slugify` from webhook.py:
`re.sub(r'[^a-z0-9]+', '-', name.lower()).strip('-')`. -/
def slugChars (l : List Char) : List Char :=
  stripDashChars (collapse false (l.map Char.toLower))

/-- `slugify` from webhook.py line 23: lowercase, collapse runs of
non-alphanumerics into single hyphens, trim hyphens at both ends. -/
def slugify (s : String) : String := ⟨slugChars s.data⟩

/-- `slugify` from populate_slugs.py: `text.lower().strip()` first, then the
same substitution and hyphen trim. -/
def slugifyPS (s : String) : String :=
  ⟨stripDashChars (collapse false (pyStripChars (s.data.map Char.toLower)))⟩

/-- Decimal rendering of a natural number (Python `str` on a non-negative
int), via explicit fuel so the definition is structural and evaluates in
the kernel. -/
def natCharsAux : Nat → Nat → List Char → List Char
  | 0, _, acc => acc
  | fuel + 1, n, acc =>
    if n < 10 then Char.ofNat (48 + n % 10) :: acc
    else natCharsAux fuel (n / 10) (Char.ofNat (48 + n % 10) :: acc)

/-- Decimal digit string of `n`. -/
def natChars (n : Nat) : List Char := natCharsAux (n + 1) n []

/-- Python `str(n)` for a non-negative integer `n`. -/
def natStr (n : Nat) : String := ⟨natChars n⟩

/-- Numeric value of an ASCII digit character. -/
def digitVal (c : Char) : Nat := c.toNat - 48

/-- Greedily read a CPython float-literal digit run `digit ('_'? digit)*`
(an underscore is only allowed between two digits); returns the digits read
(underscores removed) and the unconsumed remainder. -/
def grabUDigits : List Char → List Char × List Char
  | c :: '_' :: d :: rest =>
    if c.isDigit then
      if d.isDigit then
        let (ds, r) := grabUDigits (d :: rest)
        (c :: ds, r)
      else ([c], '_' :: d :: rest)
    else ([], c :: '_' :: d :: rest)
  | c :: rest =>
    if c.isDigit then
      let (ds, r) := grabUDigits rest
      (c :: ds, r)
    else ([], c :: rest)
  | [] => ([], [])

/-- Optional sign at the head of a float literal; returns whether the value
is negated and the remainder. -/
def pySign : List Char → Bool × List Char
  | '+' :: cs => (false, cs)
  | '-' :: cs => (true, cs)
  | cs => (false, cs)

/-- Value of a digit string read in base 10. -/
def natOfDigitChars (l : List Char) : Nat :=
  l.foldl (fun a c => 10 * a + digitVal c) 0

/-- Exact value of a parsed float literal: sign, integer-part digits,
fraction digits and decimal exponent.  The value is the rational
`mantissa / 10 ^ |fp| * 10 ^ ex`, built with `mkRat` so that it reduces in
the kernel (the generic rational product and quotient are irreducible). -/
def pyFloatVal (neg : Bool) (ip fp : List Char) (ex : Int) : ℚ :=
  let m : Int := natOfDigitChars (ip ++ fp)
  let num : Int := (if neg then -m else m) * 10 ^ ex.toNat
  let den : Nat := 10 ^ (fp.length + (-ex).toNat)
  mkRat num den

/-- Parse the exponent part after `e`/`E`: optional sign, then digits that
must consume the whole remainder. -/
def pyFloatExp (neg : Bool) (ip fp : List Char) (r : List Char) : Option ℚ :=
  let (eneg, r1) := pySign r
  let (ed, r2) := grabUDigits r1
  if ed = [] ∨ r2 ≠ [] then none
  else
    let e : Int := natOfDigitChars ed
    some (pyFloatVal neg ip fp (if eneg then -e else e))

/-- After the mantissa, a float literal either ends or carries an
exponent introduced by `e`/`E`. -/
def pyFloatTail (neg : Bool) (ip fp : List Char) : List Char → Option ℚ
  | [] => some (pyFloatVal neg ip fp 0)
  | 'e' :: r => pyFloatExp neg ip fp r
  | 'E' :: r => pyFloatExp neg ip fp r
  | _ => none

/-- CPython `float(s)` on finite decimal literals, returning the exact
rational value, `none` where CPython raises `ValueError`.  The special
forms `inf`/`infinity`/`nan` and surrounding whitespace are outside the
model (every call site strips its argument first). -/
def pyFloatQ (s : String) : Option ℚ :=
  let (neg, l1) := pySign s.data
  let (ip, l2) := grabUDigits l1
  match l2 with
  | '.' :: r =>
    let (fp, l3) := grabUDigits r
    if ip = [] ∧ fp = [] then none else pyFloatTail neg ip fp l3
  | _ => if ip = [] then none else pyFloatTail neg ip [] l2

/-- The cleanup applied to a price cell before parsing (webhook.py lines
611 and 704): `str(... or "").replace("₹", "").replace(",", "").strip()`. -/
def cleanPrice (s : String) : String :=
  pyStrip ⟨s.data.filter (fun c => !(c = '₹' || c = ','))⟩

/-- Membership in the class the fallback keeps: `re.sub(r"[^\d.]", "", s)`
retains exactly digits and dots. -/
def isDigitDot (c : Char) : Bool := c.isDigit || c = '.'

/-- The price parser of webhook.py (lines 611-617 and 704-710): clean the
string, return `0.0` if it is then empty, otherwise try `float`; on
`ValueError` strip everything but digits and dots and try again, returning
`0.0` only when nothing is left.  The second `float` call sits inside the
`except` handler, so its `ValueError` propagates: that is the `.error`
case. -/
def parsePrice (s : String) : Except Unit ℚ :=
  let raw := cleanPrice s
  if raw = "" then .ok 0
  else
    match pyFloatQ raw with
    | some q => .ok q
    | none =>
      let ds : List Char := raw.data.filter isDigitDot
      if ds = [] then .ok 0
      else
        match pyFloatQ ⟨ds⟩ with
        | some q => .ok q
        | none => .error ()

/-- Python 3 `round` to an integer: round half to even.  Computed on the
numerator and positive denominator: `f` is the floor, `rem` the remainder
`q - f` scaled by the denominator, and the comparison of `2 * rem` with
the denominator decides between `f`, `f + 1` and the tie-to-even case. -/
def pyRound (q : ℚ) : Int :=
  let d : Int := q.den
  let f : Int := q.num.fdiv d
  let rem : Int := q.num - f * d
  if 2 * rem < d then f
  else if d < 2 * rem then f + 1
  else if f % 2 = 0 then f else f + 1

/-- Exact division of a rational by 100, phrased through `Rat.divInt` so it
reduces in the kernel; `pyDiv100_eq` identifies it with `q / 100`. -/
def pyDiv100 (q : ℚ) : ℚ := Rat.divInt q.num (q.den * 100)

/-- Exact multiplication of a rational by 100, phrased through
`Rat.divInt`; `pyMul100_eq` identifies it with `q * 100`. -/
def pyMul100 (q : ℚ) : ℚ := Rat.divInt (q.num * 100) q.den

theorem pyDiv100_eq (q : ℚ) : pyDiv100 q = q / 100 := by
  rw [pyDiv100]
  rw [Rat.divInt_eq_div]
  push_cast
  rw [div_mul_eq_div_div]
  rw [Rat.num_div_den]

theorem pyMul100_eq (q : ℚ) : pyMul100 q = q * 100 := by
  rw [pyMul100]
  rw [Rat.divInt_eq_div]
  push_cast
  rw [mul_comm, mul_div_assoc, Rat.num_div_den, mul_comm]

/-- The external image placeholder used whenever a product has no image. -/
def placeholderImage : String := "https://via.placeholder.com/300x300.png?text=No+Image"

/-- A row of the `products` table (schema of `init_db` in webhook.py);
`price REAL` is modelled as an exact rational, nullable TEXT columns as
strings with `""` for NULL (every read goes through an `or` fallback that
treats the two alike). -/
structure DbProduct where
  id : Nat
  name : String
  type : String
  sizes : String
  price : ℚ
  colors : String
  prints : String
  description : String
  image_url : String
  source : String
deriving DecidableEq

/-- The normalized product dictionary returned by `find_product_by_key`
(webhook.py lines 659-725). -/
structure Product where
  id : Option Nat
  name : String
  slug : String
  price : ℚ
  image_url : String
  description : String
  sizes : List String
  colors : String
  prints : String
deriving DecidableEq

/-- A raw record from `get_all_records`: a mapping from column names to
cell values, cells modelled as strings. -/
abbrev SheetRec := List (String × String)

/-- Python `rec.get(k)` followed by the `or` fallbacks used at every call
site: a missing key behaves like the empty string. -/
def recGet (r : SheetRec) (k : String) : String :=
  match r.find? (fun kv => kv.1 == k) with
  | some kv => kv.2
  | none => ""

/-- A row of the `sheet_config` table. -/
structure SheetCfg where
  sheet_id : String
  tab_name : String
  active : Bool
deriving DecidableEq

/-- Normalization of a database row in `find_product_by_key` (webhook.py
lines 674-684). -/
def normalizeDb (p : DbProduct) (slug : String) : Product :=
  { id := some p.id
    name := p.name
    slug := slug
    price := p.price
    image_url := pyOr p.image_url placeholderImage
    description := pyOr p.description "No description available"
    sizes := if p.sizes = "" then [] else [p.sizes]
    colors := ""
    prints := "" }

/-- The per-row match test of the database scan (webhook.py line 673):
`product_key == slug or product_key == f"db_{p['id']}"`. -/
def dbMatches (key : String) (p : DbProduct) : Bool :=
  key == slugify p.name || key == "db_" ++ natStr p.id

/-- The database loop of `find_product_by_key` (webhook.py lines 671-684):
scan the `products` rows in table order, return the first row whose slug
or `db_<id>` form equals the key, normalized. -/
def dbScan (key : String) : List DbProduct → Option Product
  | [] => none
  | p :: ps =>
    if dbMatches key p then some (normalizeDb p (slugify p.name))
    else dbScan key ps

/-- Building the normalized product for a matching sheet record
(webhook.py lines 699-722); parsing the price cell can raise, which is the
`.error` case. -/
def sheetProductOf (rec : SheetRec) (name slug : String) : Except Unit Product :=
  match parsePrice (recGet rec "Price") with
  | .error e => .error e
  | .ok price =>
    .ok { id := none
          name := name
          slug := slug
          price := price
          image_url := pyOr (pyStrip (recGet rec "Image Link")) placeholderImage
          description := pyOr (pyStrip (recGet rec "Description")) "No description available"
          sizes :=
            if pyStrip (recGet rec "Product Size") = "" then []
            else [pyStrip (recGet rec "Product Size")]
          colors := pyStrip (recGet rec "Color Variants")
          prints := pyStrip (recGet rec "Print Variants") }

/-- The record loop of the sheet branch (webhook.py lines 693-722): skip
records with an empty name, return the first record whose slug equals the
key. -/
def sheetRecScan (key : String) : List SheetRec → Except Unit (Option Product)
  | [] => .ok none
  | rec :: rest =>
    let name := pyStrip (pyOr (recGet rec "Product Type") (recGet rec "Product"))
    if name = "" then sheetRecScan key rest
    else if slugify name = key then
      match sheetProductOf rec name (slugify name) with
      | .error e => .error e
      | .ok p => .ok (some p)
    else sheetRecScan key rest

/-- The sheet-configuration loop of the sheet branch (webhook.py lines
691-722): for each active configuration row, fetch the tab's records and
scan them; `records` abstracts what `get_sheet_records` returns for each
(sheet, tab) pair. -/
def sheetScan (records : String → String → List SheetRec) (key : String) :
    List SheetCfg → Except Unit (Option Product)
  | [] => .ok none
  | cfg :: rest =>
    match sheetRecScan key (records cfg.sheet_id cfg.tab_name) with
    | .error e => .error e
    | .ok (some p) => .ok (some p)
    | .ok none => sheetScan records key rest

/-- The effective `find_product_by_key` (webhook.py lines 659-725; the
later of the two definitions of that name, which is the one Python keeps):
scan the database products first, then the active sheet tabs, then report
not-found. -/
def find_product_by_key (db : List DbProduct) (cfgs : List SheetCfg)
    (records : String → String → List SheetRec) (product_key : String) :
    Except Unit (Option Product) :=
  match dbScan product_key db with
  | some p => .ok (some p)
  | none => sheetScan records product_key (cfgs.filter (fun c => c.active))

/-- An entry of the in-memory sheet cache: fetch timestamp and data. -/
structure CacheEntry where
  ts : Nat
  data : List SheetRec
deriving DecidableEq

/-- The cache key `f"{sheet_id}::{tab_name}"` (webhook.py line 227). -/
def mkCacheKey (sheet_id tab_name : String) : String := sheet_id ++ "::" ++ tab_name

/-- Result of one `get_sheet_records` call: the returned records, the
cache afterwards, and whether the call went to the external service
(`false` exactly when it was served from a fresh cache entry). -/
structure FetchResult where
  data : List SheetRec
  cache : String → Option CacheEntry
  fetched : Bool

/-- The fetch-and-populate path of `get_sheet_records` (webhook.py lines
236-257).  `fetch` abstracts the external service: `none` covers every
failure the source swallows (authentication failure, network failure,
missing tab), in which case the function returns an empty list and leaves
the cache untouched; on success the result is stored under the key with
the timestamp `now` taken at the start of the call. -/
def fetchAndCache (fetch : String → Option (List SheetRec))
    (cache : String → Option CacheEntry) (now : Nat) (key : String) : FetchResult :=
  match fetch key with
  | some d => ⟨d, fun k => if k = key then some ⟨now, d⟩ else cache k, true⟩
  | none => ⟨[], cache, true⟩

/-- `get_sheet_records` (webhook.py lines 225-257): serve a cache entry
younger than the time-to-live without an external call, otherwise fetch. -/
def get_sheet_records (ttl : Nat) (fetch : String → Option (List SheetRec))
    (cache : String → Option CacheEntry) (now : Nat) (sheet_id tab_name : String) :
    FetchResult :=
  match cache (mkCacheKey sheet_id tab_name) with
  | some e =>
    if now - e.ts < ttl then ⟨e.data, cache, false⟩
    else fetchAndCache fetch cache now (mkCacheKey sheet_id tab_name)
  | none => fetchAndCache fetch cache now (mkCacheKey sheet_id tab_name)

/-- The `payload.payment.entity` object of a webhook body; absent fields
are `none` (Python `dict.get` defaults are applied at the use sites). -/
structure PaymentEntity where
  pid : Option String
  order_id : Option String
  amount : Option ℚ
  status : Option String
  currency : Option String
  description : Option String
deriving DecidableEq

/-- The parsed JSON body of a webhook request, as far as the handler reads
it. -/
structure WebhookData where
  event : Option String
  payment : PaymentEntity
deriving DecidableEq

/-- A row of the `orders` table; `raw_payload` keeps the whole payload
(the source stores `json.dumps(data)`). -/
structure OrderRow where
  payment_id : Option String
  order_id : Option String
  status : String
  amount : ℚ
  currency : String
  raw_payload : WebhookData
deriving DecidableEq

/-- The two responses the webhook route can produce: the 400 "Missing
signature" text, or the JSON `{"ok": verified}`. -/
inductive WebhookResponse
  | missingSignature
  | ok (verified : Bool)
deriving DecidableEq

/-- The order row the handler inserts (webhook.py lines 812-824): fields
from the payment entity with the source's `get` defaults, the amount
converted from paise to rupees. -/
def orderRowOf (data : WebhookData) : OrderRow :=
  let pay := data.payment
  { payment_id := pay.pid
    order_id := pay.order_id
    status := pay.status.getD "unknown"
    amount := pyDiv100 (pay.amount.getD 0)
    currency := pay.currency.getD "INR"
    raw_payload := data }

/-- The webhook route (webhook.py lines 803-837).  `hmacHex` abstracts
`hmac.new(secret, body, sha256).hexdigest()` as a function of the raw
body.  The guard `if not sig` rejects a falsy header with 400 before
anything is recorded — both an absent header (`headers.get` returns None)
and a present-but-empty one, since the empty string is falsy; for any
other header the order row is inserted unconditionally and the response
only reports whether the constant-time comparison succeeded.  `data` is
the JSON parse of `body`, taken as a separate input. -/
def razorpay_webhook (hmacHex : String → String) (body : String) (data : WebhookData)
    (sig : Option String) (orders : List OrderRow) : WebhookResponse × List OrderRow :=
  match sig with
  | none => (.missingSignature, orders)
  | some s =>
    if s = "" then (.missingSignature, orders)
    else (.ok (hmacHex body == s), orders ++ [orderRowOf data])

/-- The observable outcomes of the `create_order` route (webhook.py lines
874-926): the 404 for an unknown key, the 500 when the lookup itself
raises, the 400 price guard, and the attempt to create a remote gateway
order, which carries the amount in paise and happens only in the last
case. -/
inductive OrderOutcome
  | resolverError
  | notFound
  | priceNotPositive
  | gatewayOrder (amountPaise : Int)
deriving DecidableEq

/-- `create_order` (webhook.py lines 874-926): resolve the key, reject a
missing product with 404, reject a non-positive price with 400 before any
gateway call, otherwise request a gateway order over
`int(round(price * 100))` paise. -/
def create_order (db : List DbProduct) (cfgs : List SheetCfg)
    (records : String → String → List SheetRec) (product_key : String) : OrderOutcome :=
  match find_product_by_key db cfgs records product_key with
  | .error _ => .resolverError
  | .ok none => .notFound
  | .ok (some p) =>
    if p.price ≤ 0 then .priceNotPositive
    else .gatewayOrder (pyRound (pyMul100 p.price))

/-- One `UPDATE products SET price=? WHERE id=?` (webhook.py line 165). -/
def priceUpdate (db : List (Nat × ℚ)) (id : Nat) (np : ℚ) : List (Nat × ℚ) :=
  db.map fun r => if r.1 = id then (r.1, np) else r

/-- `normalize_prices_in_db` (webhook.py lines 154-170): read all
`(id, price)` rows once, and for each row with `p >= 10000` and
`abs(round(p) % 100) == 0` update that id's price to `p / 100`. -/
def normalize_prices_in_db (db : List (Nat × ℚ)) : List (Nat × ℚ) :=
  db.foldl
    (fun acc r =>
      if 10000 ≤ r.2 ∧ (pyRound r.2 % 100).natAbs = 0 then priceUpdate acc r.1 (pyDiv100 r.2)
      else acc)
    db

/-- The fields of the manual-add form (webhook.py lines 396-408), each a
raw string. -/
structure ProductForm where
  name : String
  type : String
  sizes : String
  price : String
  colors : String
  prints : String
  description : String
  image_url : String

/-- The manual-add price parse (webhook.py lines 405-408):
`float(price_raw)` with any exception degrading to `0.0`. -/
def manualPrice (raw : String) : ℚ := (pyFloatQ raw).getD 0

/-- The POST branch of `admin_products` (webhook.py lines 396-414): strip
each form field and append one row with source `"db"`; `nextId` is the id
the AUTOINCREMENT column assigns. -/
def admin_add_product (db : List DbProduct) (nextId : Nat) (f : ProductForm) :
    List DbProduct :=
  db ++ [{ id := nextId
           name := pyStrip f.name
           type := pyStrip f.type
           sizes := pyStrip f.sizes
           price := manualPrice (pyOr f.price "0")
           colors := pyStrip f.colors
           prints := pyStrip f.prints
           description := pyStrip f.description
           image_url := pyStrip f.image_url
           source := "db" }]

/-- The slug written by populate_slugs.py line 21: the script's own
`slugify` of the name with `f"-{pid}"` appended. -/
def slugWithId (name : String) (pid : Nat) : String :=
  slugifyPS name ++ "-" ++ natStr pid

/-! Character inventory of slugs.  These lemmas establish that a slug
consists of hyphens and lowercase alphanumerics, never has two hyphens in
a row, and neither starts nor ends with a hyphen — and that a list with
those properties is fixed by the slug transformation. -/

/-- No two adjacent hyphens. -/
def NoDD (l : List Char) : Prop := l.Chain' (fun a b => ¬(a = '-' ∧ b = '-'))

theorem isAlnumLower_ne_dash {c : Char} (h : isAlnumLower c = true) : c ≠ '-' := by
  intro hc
  subst hc
  exact absurd h (by decide)

theorem mem_collapse : ∀ (b : Bool) (l : List Char) (c : Char),
    c ∈ collapse b l → isAlnumLower c = true ∨ c = '-' := by
  intro b l
  induction l generalizing b with
  | nil => intro c h; simp [collapse] at h
  | cons d ds ih =>
    intro c h
    unfold collapse at h
    cases hd : isAlnumLower d with
    | true =>
      simp only [hd, if_true, List.mem_cons] at h
      rcases h with rfl | h
      · exact Or.inl hd
      · exact ih false c h
    | false =>
      simp only [hd, Bool.false_eq_true, if_false] at h
      cases b with
      | true => exact ih true c h
      | false =>
        rcases List.mem_cons.mp (by simpa using h) with rfl | h2
        · exact Or.inr rfl
        · exact ih true c h2

theorem collapse_head_alnum : ∀ (l : List Char) (c : Char),
    (collapse true l).head? = some c → isAlnumLower c = true := by
  intro l
  induction l with
  | nil => intro c h; simp [collapse] at h
  | cons d ds ih =>
    intro c h
    unfold collapse at h
    cases hd : isAlnumLower d with
    | true =>
      simp only [hd, if_true, List.head?_cons, Option.some_inj] at h
      exact h ▸ hd
    | false =>
      simp only [hd, Bool.false_eq_true, if_false, if_true] at h
      exact ih c h

theorem collapse_noDD : ∀ l : List Char, NoDD (collapse false l) ∧ NoDD (collapse true l) := by
  intro l
  induction l with
  | nil => exact ⟨List.chain'_nil, List.chain'_nil⟩
  | cons d ds ih =>
    obtain ⟨ihf, iht⟩ := ih
    cases hd : isAlnumLower d with
    | true =>
      have key : NoDD (d :: collapse false ds) := by
        rw [NoDD, List.chain'_cons']
        refine ⟨?_, ihf⟩
        rintro y - ⟨h1, -⟩
        exact isAlnumLower_ne_dash hd h1
      constructor <;> (unfold collapse; simp only [hd, if_true]; exact key)
    | false =>
      have key : NoDD ('-' :: collapse true ds) := by
        rw [NoDD, List.chain'_cons']
        refine ⟨?_, iht⟩
        rintro y hy ⟨-, h2⟩
        exact isAlnumLower_ne_dash (collapse_head_alnum ds y hy) h2
      constructor
      · unfold collapse; simp only [hd, Bool.false_eq_true, if_false]; exact key
      · unfold collapse; simp only [hd, Bool.false_eq_true, if_false, if_true]; exact iht

theorem noDD_reverse {l : List Char} (h : NoDD l) : NoDD l.reverse := by
  rw [NoDD, List.chain'_reverse]
  exact h.imp (fun _ _ hab hcd => hab ⟨hcd.2, hcd.1⟩)

theorem stripDash_subset {l : List Char} {c : Char} (h : c ∈ stripDashChars l) : c ∈ l := by
  unfold stripDashChars at h
  rw [List.mem_reverse] at h
  have h2 := (List.dropWhile_suffix isDash).sublist.subset h
  rw [List.mem_reverse] at h2
  exact (List.dropWhile_suffix isDash).sublist.subset h2

theorem stripDash_noDD {l : List Char} (h : NoDD l) : NoDD (stripDashChars l) := by
  unfold stripDashChars
  exact noDD_reverse ((noDD_reverse (h.suffix (List.dropWhile_suffix isDash))).suffix
    (List.dropWhile_suffix isDash))

theorem stripDash_last {l : List Char} {c : Char}
    (h : (stripDashChars l).getLast? = some c) : isDash c = false := by
  unfold stripDashChars at h
  rw [List.getLast?_reverse] at h
  have := List.head?_dropWhile_not isDash (l.dropWhile isDash).reverse
  rw [h] at this
  simpa using this

theorem stripDash_head {l : List Char} {c : Char}
    (h : (stripDashChars l).head? = some c) : isDash c = false := by
  unfold stripDashChars at h
  rw [List.head?_reverse] at h
  obtain ⟨s, hs⟩ := List.dropWhile_suffix (l := (l.dropWhile isDash).reverse) isDash
  have hne : (l.dropWhile isDash).reverse.dropWhile isDash ≠ [] := by
    intro hnil
    rw [hnil] at h
    simp at h
  have hlast : (l.dropWhile isDash).reverse.getLast? = some c := by
    rw [← hs, List.getLast?_append, h]
    rfl
  rw [List.getLast?_reverse] at hlast
  have := List.head?_dropWhile_not isDash l
  rw [hlast] at this
  simpa using this

theorem slugChars_mem {s : List Char} {c : Char} (h : c ∈ slugChars s) :
    isAlnumLower c = true ∨ c = '-' :=
  mem_collapse false (s.map Char.toLower) c (stripDash_subset h)

theorem slugChars_noDD (s : List Char) : NoDD (slugChars s) :=
  stripDash_noDD (collapse_noDD (s.map Char.toLower)).1

theorem slugChars_head {s : List Char} {c : Char} (h : (slugChars s).head? = some c) :
    isDash c = false :=
  stripDash_head h

theorem slugChars_last {s : List Char} {c : Char} (h : (slugChars s).getLast? = some c) :
    isDash c = false :=
  stripDash_last h

theorem toLower_fix {c : Char} (h : isAlnumLower c = true ∨ c = '-') : c.toLower = c := by
  have hn : ¬(65 ≤ c.toNat ∧ c.toNat ≤ 90) := by
    rcases h with h | rfl
    · simp only [isAlnumLower, Bool.or_eq_true, Bool.and_eq_true, decide_eq_true_eq] at h
      omega
    · decide
  unfold Char.toLower
  rw [if_neg hn]

theorem map_toLower_fix {l : List Char} (h : ∀ c ∈ l, isAlnumLower c = true ∨ c = '-') :
    l.map Char.toLower = l := by
  induction l with
  | nil => rfl
  | cons d ds ih =>
    rw [List.map_cons, toLower_fix (h d (List.mem_cons_self d ds)),
      ih (fun c hc => h c (List.mem_cons_of_mem d hc))]

theorem collapse_fix : ∀ l : List Char, (∀ c ∈ l, isAlnumLower c = true ∨ c = '-') →
    NoDD l → collapse false l = l ∧ (l.head? ≠ some '-' → collapse true l = l) := by
  intro l
  induction l with
  | nil => intro _ _; exact ⟨rfl, fun _ => rfl⟩
  | cons d ds ih =>
    intro hmem hdd
    have hdd' := (List.chain'_cons'.mp hdd)
    obtain ⟨ihf, iht⟩ := ih (fun c hc => hmem c (List.mem_cons_of_mem d hc)) hdd'.2
    rcases hmem d (List.mem_cons_self d ds) with hd | rfl
    · have step : ∀ b : Bool, collapse b (d :: ds) = d :: ds := by
        intro b
        unfold collapse
        simp only [hd, if_true]
        rw [ihf]
      exact ⟨step false, fun _ => step true⟩
    · have hds : ds.head? ≠ some '-' := by
        intro hh
        exact hdd'.1 '-' hh ⟨rfl, rfl⟩
      constructor
      · unfold collapse
        simp only [show isAlnumLower '-' = false by decide, Bool.false_eq_true, if_false]
        rw [iht hds]
      · intro hhead
        exact absurd rfl hhead

theorem dropWhile_eq_self_of_head {p : Char → Bool} (l : List Char)
    (h : ∀ c, l.head? = some c → p c = false) : l.dropWhile p = l := by
  cases l with
  | nil => rfl
  | cons a as =>
    have := h a rfl
    simp [List.dropWhile, this]

theorem stripDash_fix {l : List Char}
    (hh : ∀ c, l.head? = some c → isDash c = false)
    (hl : ∀ c, l.getLast? = some c → isDash c = false) : stripDashChars l = l := by
  unfold stripDashChars
  rw [dropWhile_eq_self_of_head l hh]
  rw [dropWhile_eq_self_of_head l.reverse (fun c hc => hl c (by rwa [List.head?_reverse] at hc))]
  exact List.reverse_reverse l

theorem slugChars_fix {l : List Char}
    (hmem : ∀ c ∈ l, isAlnumLower c = true ∨ c = '-') (hdd : NoDD l)
    (hh : ∀ c, l.head? = some c → isDash c = false)
    (hl : ∀ c, l.getLast? = some c → isDash c = false) : slugChars l = l := by
  unfold slugChars
  rw [map_toLower_fix hmem, (collapse_fix l hmem hdd).1]
  exact stripDash_fix hh hl

theorem slugChars_idem (s : List Char) : slugChars (slugChars s) = slugChars s :=
  slugChars_fix (fun _ hc => slugChars_mem hc) (slugChars_noDD s)
    (fun _ hc => slugChars_head hc) (fun _ hc => slugChars_last hc)

/-! Example environments used by the concrete runs below. -/

/-- A one-product database: id 1, name "Shirt", price 10. -/
def sampleDb : List DbProduct := [⟨1, "Shirt", "", "", 10, "", "", "", "", "db"⟩]

/-- One active sheet configuration row. -/
def sampleCfgs : List SheetCfg := [⟨"S", "T", true⟩]

/-- The active tab holds one record that also slugifies to "shirt", with
price 20. -/
def sampleRecords : String → String → List SheetRec :=
  fun _ _ => [[("Product Type", "Shirt"), ("Price", "20")]]

/-- A webhook payload with every field present. -/
def samplePayload : WebhookData :=
  ⟨some "payment.captured",
    ⟨some "pay_1", some "order_1", some 46000, some "captured", some "INR", some "tee"⟩⟩

/-- A one-product database whose product has price 0. -/
def freeDb : List DbProduct := [⟨1, "Free", "", "", 0, "", "", "", "", "db"⟩]

/-- C9: for every name string n, the slug generator is idempotent:
`slugify (slugify n) = slugify n`. -/
theorem C9_slugify_idempotent (n : String) : slugify (slugify n) = slugify n :=
  congrArg String.mk (slugChars_idem n.data)

/-- C2 (counterexample): a webhook request with a missing signature header
is answered with the 400 "Missing signature" response and no order row is
inserted, refuting the claim that the order is recorded and a
verified-false response returned whether the signature is missing,
invalid or valid. -/
theorem C2_webhook_counterexample :
    razorpay_webhook (fun _ => "expected") "body" samplePayload none [] =
      (.missingSignature, []) := rfl

/-- C2 (amended): when a nonempty signature header is present — valid or
invalid — the order row is inserted with status taken from the payload
and only the verification boolean in the response differs, true exactly
when the header equals the digest of the raw body; when the header is
missing, or present but empty (both falsy under the source's `if not
sig`), the request is rejected with 400 and nothing is recorded. -/
theorem C2_webhook_records_amended (hmacHex : String → String) (body : String)
    (data : WebhookData) (sig : Option String) (orders : List OrderRow) :
    ((sig = none ∨ sig = some "") →
      razorpay_webhook hmacHex body data sig orders = (.missingSignature, orders)) ∧
    (∀ s, sig = some s → s ≠ "" →
      razorpay_webhook hmacHex body data sig orders =
        (.ok (hmacHex body == s), orders ++ [orderRowOf data]) ∧
      (orderRowOf data).status = data.payment.status.getD "unknown") := by
  constructor
  · rintro (rfl | rfl)
    · rfl
    · rfl
  · rintro s rfl hne
    show (if s = "" then ((.missingSignature : WebhookResponse), orders)
      else (.ok (hmacHex body == s), orders ++ [orderRowOf data])) =
        (.ok (hmacHex body == s), orders ++ [orderRowOf data]) ∧
      (orderRowOf data).status = data.payment.status.getD "unknown"
    rw [if_neg hne]
    exact ⟨rfl, rfl⟩

/-- Witness for C2: a valid signature yields `ok true` with the row
recorded, an invalid one `ok false` with the row still recorded, and a
missing header as well as a present-but-empty one the 400 with nothing
recorded. -/
theorem C2_webhook_records_amended_witness :
    razorpay_webhook (fun _ => "sig") "b" samplePayload (some "sig") [] =
      (.ok true, [orderRowOf samplePayload]) ∧
    razorpay_webhook (fun _ => "sig") "b" samplePayload (some "bad") [] =
      (.ok false, [orderRowOf samplePayload]) ∧
    razorpay_webhook (fun _ => "sig") "b" samplePayload none [] = (.missingSignature, []) ∧
    razorpay_webhook (fun _ => "sig") "b" samplePayload (some "") [] =
      (.missingSignature, []) :=
  ⟨((C2_webhook_records_amended (fun _ => "sig") "b" samplePayload (some "sig") []).2
      "sig" rfl (by decide)).1,
   ((C2_webhook_records_amended (fun _ => "sig") "b" samplePayload (some "bad") []).2
      "bad" rfl (by decide)).1,
   (C2_webhook_records_amended (fun _ => "sig") "b" samplePayload none []).1 (Or.inl rfl),
   (C2_webhook_records_amended (fun _ => "sig") "b" samplePayload (some "") []).1
     (Or.inr rfl)⟩

/-- Every pass through the fetch path reports an external attempt. -/
theorem fetchAndCache_fetched (fetch : String → Option (List SheetRec))
    (cache : String → Option CacheEntry) (now : Nat) (key : String) :
    (fetchAndCache fetch cache now key).fetched = true := by
  unfold fetchAndCache
  cases fetch key <;> rfl

/-- C5: when the external fetch fails (authentication failure, network
failure or missing tab, all of which the source catches), the call returns
an empty sequence without raising, stores nothing — the cache function is
returned unchanged — and therefore the immediately following call for the
same key goes to the external service again. -/
theorem C5_fetch_failure_not_cached (ttl : Nat) (fetch : String → Option (List SheetRec))
    (cache : String → Option CacheEntry) (now : Nat) (sheet_id tab_name : String)
    (hfail : fetch (mkCacheKey sheet_id tab_name) = none)
    (hmiss : cache (mkCacheKey sheet_id tab_name) = none ∨
      ∃ e, cache (mkCacheKey sheet_id tab_name) = some e ∧ ttl ≤ now - e.ts) :
    (get_sheet_records ttl fetch cache now sheet_id tab_name).data = [] ∧
    (get_sheet_records ttl fetch cache now sheet_id tab_name).cache = cache ∧
    (get_sheet_records ttl fetch cache now sheet_id tab_name).fetched = true ∧
    ∀ now2, now ≤ now2 →
      (get_sheet_records ttl fetch
        (get_sheet_records ttl fetch cache now sheet_id tab_name).cache
        now2 sheet_id tab_name).fetched = true := by
  have hget : get_sheet_records ttl fetch cache now sheet_id tab_name =
      ⟨[], cache, true⟩ := by
    unfold get_sheet_records
    rcases hmiss with hnone | ⟨e, he, hexp⟩
    · simp only [hnone]
      unfold fetchAndCache
      rw [hfail]
    · simp only [he]
      rw [if_neg (by omega)]
      unfold fetchAndCache
      rw [hfail]
  refine ⟨by rw [hget], by rw [hget], by rw [hget], ?_⟩
  intro now2 hle
  rw [hget]
  show (get_sheet_records ttl fetch cache now2 sheet_id tab_name).fetched = true
  unfold get_sheet_records
  rcases hmiss with hnone | ⟨e, he, hexp⟩
  · simp only [hnone]
    exact fetchAndCache_fetched ..
  · simp only [he]
    rw [if_neg (by omega)]
    exact fetchAndCache_fetched ..

/-- Witness for C5: a failing fetch on an empty cache returns no rows,
reports an attempt, and the follow-up call five time units later attempts
again. -/
theorem C5_fetch_failure_not_cached_witness :
    (get_sheet_records 300 (fun _ => none) (fun _ => none) 0 "S" "T").data = [] ∧
    (get_sheet_records 300 (fun _ => none) (fun _ => none) 0 "S" "T").fetched = true ∧
    (get_sheet_records 300 (fun _ => none)
      (get_sheet_records 300 (fun _ => none) (fun _ => none) 0 "S" "T").cache
      5 "S" "T").fetched = true :=
  ⟨(C5_fetch_failure_not_cached 300 (fun _ => none) (fun _ => none) 0 "S" "T" rfl
      (Or.inl rfl)).1,
   (C5_fetch_failure_not_cached 300 (fun _ => none) (fun _ => none) 0 "S" "T" rfl
      (Or.inl rfl)).2.2.1,
   (C5_fetch_failure_not_cached 300 (fun _ => none) (fun _ => none) 0 "S" "T" rfl
      (Or.inl rfl)).2.2.2 5 (by omega)⟩

/-- C4 (counterexample): with a failing external fetch, two calls at times
0 and 10 — both inside one 300-second time-to-live window — each issue an
external fetch, refuting the unconditional "at most one external fetch per
window": the failure is deliberately not cached, so the second call
retries. -/
theorem C4_cache_counterexample :
    (get_sheet_records 300 (fun _ => none) (fun _ => none) 0 "S" "T").fetched = true ∧
    (get_sheet_records 300 (fun _ => none)
      (get_sheet_records 300 (fun _ => none) (fun _ => none) 0 "S" "T").cache
      10 "S" "T").fetched = true :=
  ⟨rfl, rfl⟩

/-- A call that finds a fresh entry is served from the cache with no
external attempt. -/
theorem get_sheet_records_hit (ttl : Nat) (fetch : String → Option (List SheetRec))
    (cache : String → Option CacheEntry) (now : Nat) (sid tab : String) (e : CacheEntry)
    (hhit : cache (mkCacheKey sid tab) = some e) (hfresh : now - e.ts < ttl) :
    get_sheet_records ttl fetch cache now sid tab = ⟨e.data, cache, false⟩ := by
  unfold get_sheet_records
  simp only [hhit]
  rw [if_pos hfresh]

/-- C4 (amended): provided the external fetch succeeds, a first call on a
cold key fetches once and stores the records under the call's timestamp,
and a second call within the time-to-live window is served from the cache
without fetching; a call that finds its cached entry expired issues
exactly one fresh fetch and, on success, stores the result with the
call's fresh timestamp. -/
theorem C4_cache_amended :
    (∀ (ttl : Nat) (fetch : String → Option (List SheetRec))
      (cache : String → Option CacheEntry) (t0 t1 : Nat) (sid tab : String)
      (d : List SheetRec),
      cache (mkCacheKey sid tab) = none →
      fetch (mkCacheKey sid tab) = some d →
      t1 - t0 < ttl →
      (get_sheet_records ttl fetch cache t0 sid tab).fetched = true ∧
      (get_sheet_records ttl fetch cache t0 sid tab).data = d ∧
      (get_sheet_records ttl fetch cache t0 sid tab).cache (mkCacheKey sid tab) =
        some ⟨t0, d⟩ ∧
      (get_sheet_records ttl fetch
        (get_sheet_records ttl fetch cache t0 sid tab).cache t1 sid tab).fetched = false ∧
      (get_sheet_records ttl fetch
        (get_sheet_records ttl fetch cache t0 sid tab).cache t1 sid tab).data = d) ∧
    (∀ (ttl : Nat) (fetch : String → Option (List SheetRec))
      (cache : String → Option CacheEntry) (now : Nat) (sid tab : String)
      (e : CacheEntry) (d : List SheetRec),
      cache (mkCacheKey sid tab) = some e → ttl ≤ now - e.ts →
      fetch (mkCacheKey sid tab) = some d →
      (get_sheet_records ttl fetch cache now sid tab).fetched = true ∧
      (get_sheet_records ttl fetch cache now sid tab).cache (mkCacheKey sid tab) =
        some ⟨now, d⟩) := by
  constructor
  · intro ttl fetch cache t0 t1 sid tab d hmiss hfetch hwin
    have hget : get_sheet_records ttl fetch cache t0 sid tab =
        ⟨d, fun k => if k = mkCacheKey sid tab then some ⟨t0, d⟩ else cache k, true⟩ := by
      unfold get_sheet_records
      simp only [hmiss]
      unfold fetchAndCache
      rw [hfetch]
    refine ⟨by rw [hget], by rw [hget], ?_, ?_, ?_⟩
    · rw [hget]
      exact if_pos rfl
    · rw [hget]
      rw [get_sheet_records_hit ttl fetch _ t1 sid tab ⟨t0, d⟩ (by simp) hwin]
    · rw [hget]
      rw [get_sheet_records_hit ttl fetch _ t1 sid tab ⟨t0, d⟩ (by simp) hwin]
  · intro ttl fetch cache now sid tab e d hhit hexp hfetch
    have hget : get_sheet_records ttl fetch cache now sid tab =
        ⟨d, fun k => if k = mkCacheKey sid tab then some ⟨now, d⟩ else cache k, true⟩ := by
      unfold get_sheet_records
      simp only [hhit]
      rw [if_neg (by omega)]
      unfold fetchAndCache
      rw [hfetch]
    refine ⟨by rw [hget], ?_⟩
    rw [hget]
    exact if_pos rfl

/-- Witness for C4: a successful fetch at time 0 is cached and the call at
time 10 is served without fetching; an entry expired at time 400 is
refetched and restamped. -/
theorem C4_cache_amended_witness :
    (get_sheet_records 300 (fun _ => some [[("Product", "P")]]) (fun _ => none) 0 "S" "T").fetched
      = true ∧
    (get_sheet_records 300 (fun _ => some [[("Product", "P")]])
      (get_sheet_records 300 (fun _ => some [[("Product", "P")]]) (fun _ => none) 0 "S" "T").cache
      10 "S" "T").fetched = false ∧
    (get_sheet_records 300 (fun _ => some [[("Product", "P")]])
      (fun _ => some ⟨0, []⟩) 400 "S" "T").cache (mkCacheKey "S" "T") =
      some ⟨400, [[("Product", "P")]]⟩ :=
  ⟨((C4_cache_amended.1 300 (fun _ => some [[("Product", "P")]]) (fun _ => none) 0 10 "S" "T"
      [[("Product", "P")]] rfl rfl (by omega))).1,
   ((C4_cache_amended.1 300 (fun _ => some [[("Product", "P")]]) (fun _ => none) 0 10 "S" "T"
      [[("Product", "P")]] rfl rfl (by omega))).2.2.2.1,
   (C4_cache_amended.2 300 (fun _ => some [[("Product", "P")]]) (fun _ => some ⟨0, []⟩) 400
      "S" "T" ⟨0, []⟩ [[("Product", "P")]] rfl (by decide) rfl).2⟩

/-- C10: whenever the key resolves to a product whose price is zero or
negative, `create_order` answers with the 400 price error and never
reaches the gateway call; a gateway order is attempted only when the
resolved price is strictly positive. -/
theorem C10_zero_price_guard (db : List DbProduct) (cfgs : List SheetCfg)
    (records : String → String → List SheetRec) (key : String) (p : Product)
    (hres : find_product_by_key db cfgs records key = .ok (some p)) :
    (p.price ≤ 0 → create_order db cfgs records key = .priceNotPositive) ∧
    (∀ a, create_order db cfgs records key = .gatewayOrder a → 0 < p.price) := by
  unfold create_order
  simp only [hres]
  constructor
  · intro hle
    rw [if_pos hle]
  · intro a h
    by_contra hnot
    push_neg at hnot
    rw [if_pos hnot] at h
    exact OrderOutcome.noConfusion h

/-- Witness for C10: the zero-priced product is rejected before any
gateway call, and the shirt sample that does reach the gateway has a
positive price. -/
theorem C10_zero_price_guard_witness :
    create_order freeDb [] (fun _ _ => []) "free" = .priceNotPositive ∧ (0 : ℚ) < 10 :=
  ⟨(C10_zero_price_guard freeDb [] (fun _ _ => []) "free"
      ⟨some 1, "Free", "free", 0, placeholderImage, "No description available", [], "", ""⟩
      (by decide)).1 (by decide),
   (C10_zero_price_guard sampleDb sampleCfgs sampleRecords "shirt"
      ⟨some 1, "Shirt", "shirt", 10, placeholderImage, "No description available", [], "", ""⟩
      (by decide)).2 1000 (by decide)⟩

/-- The empty string is not a float literal. -/
theorem pyFloatQ_empty : pyFloatQ "" = none := rfl

/-- C3 (counterexample): the price string "1.2.3" survives cleanup
unchanged, fails the direct `float` parse, and the digit-and-dot fallback
is again "1.2.3", whose `float` call raises an uncaught `ValueError` — so
the parser does raise on some inputs. -/
theorem C3_parse_price_counterexample : parsePrice "1.2.3" = .error () := by decide

/-- C3 (amended): a cleaned price string that parses as a number yields
that number, one whose residue holds no digits or dots yields 0.0 (so
"₹1,250.00" parses to 1250 and "N/A" to 0.0), but the parser raises
exactly when the direct parse fails while the nonempty digit-and-dot
residue also fails to parse. -/
theorem C3_parse_price_amended :
    (∀ (s : String) (q : ℚ), 0 ≤ q → pyFloatQ (cleanPrice s) = some q →
      parsePrice s = .ok q) ∧
    (∀ s : String, pyFloatQ (cleanPrice s) = none →
      (cleanPrice s).data.filter isDigitDot = [] → parsePrice s = .ok 0) ∧
    (∀ s : String, parsePrice s = .error () ↔
      (pyFloatQ (cleanPrice s) = none ∧ (cleanPrice s).data.filter isDigitDot ≠ [] ∧
        pyFloatQ ⟨(cleanPrice s).data.filter isDigitDot⟩ = none)) ∧
    parsePrice "₹1,250.00" = .ok 1250 ∧ parsePrice "N/A" = .ok 0 := by
  refine ⟨?_, ?_, ?_, by decide, by decide⟩
  · intro s q _ hsome
    simp only [parsePrice]
    have hraw : ¬cleanPrice s = "" := by
      intro hraw
      rw [hraw, pyFloatQ_empty] at hsome
      exact Option.noConfusion hsome
    rw [if_neg hraw]
    simp only [hsome]
  · intro s hnone hempty
    simp only [parsePrice]
    by_cases hraw : cleanPrice s = ""
    · rw [if_pos hraw]
    · rw [if_neg hraw]
      simp only [hnone]
      rw [if_pos hempty]
  · intro s
    simp only [parsePrice]
    by_cases hraw : cleanPrice s = ""
    · rw [if_pos hraw]
      constructor
      · intro h
        exact Except.noConfusion h
      · rintro ⟨-, h2, -⟩
        refine absurd ?_ h2
        rw [hraw]
        rfl
    · rw [if_neg hraw]
      cases hq : pyFloatQ (cleanPrice s) with
      | some q =>
        constructor
        · intro h
          exact Except.noConfusion h
        · rintro ⟨h1, -, -⟩
          exact Option.noConfusion h1
      | none =>
        by_cases hd : (cleanPrice s).data.filter isDigitDot = []
        · rw [if_pos hd]
          constructor
          · intro h
            exact Except.noConfusion h
          · rintro ⟨-, h2, -⟩
            exact absurd hd h2
        · rw [if_neg hd]
          cases hq2 : pyFloatQ ⟨(cleanPrice s).data.filter isDigitDot⟩ with
          | some q =>
            constructor
            · intro h
              exact Except.noConfusion h
            · rintro ⟨-, -, h3⟩
              exact Option.noConfusion h3
          | none =>
            exact ⟨fun _ => ⟨rfl, hd, rfl⟩, fun _ => rfl⟩

/-- Witness for C3: the amended theorem evaluated at "₹2.50" (a parsable
non-negative price) and at "abc" (no digits at all). -/
theorem C3_parse_price_amended_witness :
    parsePrice "₹2.50" = .ok (mkRat 5 2) ∧ parsePrice "abc" = .ok 0 :=
  ⟨C3_parse_price_amended.1 "₹2.50" (mkRat 5 2) (by decide) (by decide),
   (C3_parse_price_amended.2.1 "abc" (by decide) (by decide))⟩

/-- The database loop returns exactly the first matching row of the table
scan, normalized. -/
theorem dbScan_eq_find (key : String) : ∀ db : List DbProduct,
    dbScan key db = (db.find? (dbMatches key)).map (fun p => normalizeDb p (slugify p.name)) := by
  intro db
  induction db with
  | nil => rfl
  | cons p ps ih =>
    unfold dbScan
    cases h : dbMatches key p
    · rw [List.find?_cons_of_neg _ (by simp [h])]
      simp only [Bool.false_eq_true, if_false]
      exact ih
    · rw [List.find?_cons_of_pos _ h]
      simp only [if_true]
      rfl

/-- C1 (counterexample): with one database product "Shirt" (price 10) and
one active sheet tab whose first record also slugifies to "shirt" (price
20), resolving "shirt" returns the database product, although a sheet
match exists — so sheet sources are not consulted first. -/
theorem C1_resolver_order_counterexample :
    find_product_by_key sampleDb sampleCfgs sampleRecords "shirt" =
      .ok (some ⟨some 1, "Shirt", "shirt", 10, placeholderImage,
        "No description available", [], "", ""⟩) ∧
    sheetRecScan "shirt" (sampleRecords "S" "T") =
      .ok (some ⟨none, "Shirt", "shirt", 20, placeholderImage,
        "No description available", [], "", ""⟩) ∧
    (⟨some 1, "Shirt", "shirt", 10, placeholderImage,
        "No description available", [], "", ""⟩ : Product) ≠
      ⟨none, "Shirt", "shirt", 20, placeholderImage,
        "No description available", [], "", ""⟩ := by
  refine ⟨by decide, by decide, by decide⟩

/-- C1 (amended): for every environment and key, the resolver first scans
the database products in table order — matching the computed slug (without
identifier suffix) or the db_<id> form — and returns the first match
normalized; only when no database product matches does it scan the active
sheet configurations through the cache; with no active sheets and no
database match the scan of an empty configuration list reports not-found. -/
theorem C1_resolver_order_amended (db : List DbProduct) (cfgs : List SheetCfg)
    (records : String → String → List SheetRec) (key : String) :
    (find_product_by_key db cfgs records key =
      match db.find? (dbMatches key) with
      | some p => .ok (some (normalizeDb p (slugify p.name)))
      | none => sheetScan records key (cfgs.filter (fun c => c.active))) ∧
    sheetScan records key [] = .ok none := by
  refine ⟨?_, rfl⟩
  unfold find_product_by_key
  rw [dbScan_eq_find]
  cases db.find? (dbMatches key) <;> rfl

/-- The per-element effect of running the update loop over `rows` on one
row of the table: each processed row with a matching id and a qualifying
snapshot price overwrites the price. -/
def rowTransform (rows : List (Nat × ℚ)) (x : Nat × ℚ) : Nat × ℚ :=
  rows.foldl
    (fun y r =>
      if (10000 ≤ r.2 ∧ (pyRound r.2 % 100).natAbs = 0) ∧ y.1 = r.1
      then (r.1, pyDiv100 r.2) else y)
    x

/-- The update fold acts on the table as a map of per-row transforms. -/
theorem foldl_priceUpdate_map : ∀ (rows acc : List (Nat × ℚ)),
    rows.foldl
      (fun acc r =>
        if 10000 ≤ r.2 ∧ (pyRound r.2 % 100).natAbs = 0
        then priceUpdate acc r.1 (pyDiv100 r.2) else acc)
      acc = acc.map (rowTransform rows) := by
  intro rows
  induction rows with
  | nil =>
    intro acc
    rw [List.foldl_nil]
    symm
    exact List.map_id acc
  | cons r rows ih =>
    intro acc
    rw [List.foldl_cons]
    rw [ih]
    by_cases hc : 10000 ≤ r.2 ∧ (pyRound r.2 % 100).natAbs = 0
    · rw [if_pos hc]
      unfold priceUpdate
      rw [List.map_map]
      apply List.map_congr_left
      intro x _
      show rowTransform rows (if x.1 = r.1 then (x.1, pyDiv100 r.2) else x) =
        rowTransform (r :: rows) x
      unfold rowTransform
      rw [List.foldl_cons]
      congr 1
      by_cases hx1 : x.1 = r.1
      · rw [if_pos hx1, if_pos ⟨hc, hx1⟩, hx1]
      · rw [if_neg hx1, if_neg (fun h => hx1 h.2)]
    · rw [if_neg hc]
      apply List.map_congr_left
      intro x _
      show rowTransform rows x = rowTransform (r :: rows) x
      unfold rowTransform
      rw [List.foldl_cons]
      congr 1
      rw [if_neg (fun h => hc h.1)]

/-- Rows whose id never occurs leave a row unchanged. -/
theorem rowTransform_skip : ∀ (rows : List (Nat × ℚ)) (y : Nat × ℚ),
    (∀ r ∈ rows, r.1 ≠ y.1) → rowTransform rows y = y := by
  intro rows
  induction rows with
  | nil => intro y _; rfl
  | cons r rows ih =>
    intro y h
    unfold rowTransform
    rw [List.foldl_cons]
    rw [if_neg (fun hh => h r (List.mem_cons_self r rows) (hh.2.symm))]
    exact ih y (fun r2 hr2 => h r2 (List.mem_cons_of_mem r hr2))

/-- C7 (counterexample): the stored price 9999.6 has integer value
`round(9999.6) = 10000`, which is at least 10,000 and divisible by 100, so
the claim mandates division by 100; the pass compares the raw price with
10000 and leaves the row unchanged. -/
theorem C7_normalize_counterexample :
    normalize_prices_in_db [(1, mkRat 49998 5)] = [(1, mkRat 49998 5)] ∧
    (10000 ≤ pyRound (mkRat 49998 5) ∧ (pyRound (mkRat 49998 5) % 100).natAbs = 0) ∧
    pyDiv100 (mkRat 49998 5) ≠ mkRat 49998 5 :=
  ⟨rfl, by decide, by decide⟩

/-- C7 (amended): provided table ids are unique (the id column is the
AUTOINCREMENT primary key), the startup pass maps each row in place,
dividing the price by 100 exactly when the raw price is at least 10,000
and its rounded integer value is divisible by 100, and leaving every other
price unchanged; in particular 15000 becomes 150 and 149 stays 149. -/
theorem C7_normalize_amended (db : List (Nat × ℚ)) (hids : (db.map Prod.fst).Nodup) :
    normalize_prices_in_db db =
      db.map (fun r =>
        if 10000 ≤ r.2 ∧ (pyRound r.2 % 100).natAbs = 0 then (r.1, pyDiv100 r.2) else r) := by
  unfold normalize_prices_in_db
  rw [foldl_priceUpdate_map]
  apply List.map_congr_left
  intro x hx
  obtain ⟨l1, l2, rfl⟩ := List.append_of_mem hx
  rw [List.map_append, List.map_cons] at hids
  rw [List.nodup_append] at hids
  obtain ⟨-, hcons, hdisj⟩ := hids
  rw [List.nodup_cons] at hcons
  have h1 : ∀ r ∈ l1, r.1 ≠ x.1 := by
    intro r hr heq
    exact hdisj (List.mem_map_of_mem Prod.fst hr) (heq ▸ List.mem_cons_self x.1 _)
  have h2 : ∀ r ∈ l2, r.1 ≠ x.1 := by
    intro r hr heq
    exact hcons.1 (heq ▸ List.mem_map_of_mem Prod.fst hr)
  unfold rowTransform
  rw [List.foldl_append]
  have hskip1 : List.foldl
      (fun y r =>
        if (10000 ≤ r.2 ∧ (pyRound r.2 % 100).natAbs = 0) ∧ y.1 = r.1
        then (r.1, pyDiv100 r.2) else y) x l1 = x := rowTransform_skip l1 x h1
  rw [hskip1, List.foldl_cons]
  by_cases hc : 10000 ≤ x.2 ∧ (pyRound x.2 % 100).natAbs = 0
  · rw [if_pos ⟨hc, rfl⟩, if_pos hc]
    exact rowTransform_skip l2 (x.1, pyDiv100 x.2) h2
  · rw [if_neg (fun h => hc h.1), if_neg hc]
    exact rowTransform_skip l2 x h2

/-- Witness for C7: the two scenario rows, ids 1 and 2: price 15000 is
normalized to 150 while 149 is untouched. -/
theorem C7_normalize_amended_witness :
    normalize_prices_in_db [(1, 15000), (2, 149)] = [(1, 150), (2, 149)] := by
  rw [C7_normalize_amended [(1, 15000), (2, 149)] (by decide)]
  decide

/-- A slug never contains an underscore. -/
theorem slug_no_underscore (s : String) : '_' ∉ (slugify s).data := by
  intro hmem
  rcases slugChars_mem hmem with h | h
  · exact absurd h (by decide)
  · exact absurd h (by decide)

/-- A slug is never of the reserved `db_<id>` form. -/
theorem slug_ne_db (s : String) (id : Nat) : slugify s ≠ "db_" ++ natStr id := by
  intro h
  apply slug_no_underscore s
  rw [h, String.data_append]
  rw [show ("db_" : String).data = ['d', 'b', '_'] from rfl]
  exact List.mem_append_left _ (by decide)

/-- C8 (counterexample): a product manually added with an empty
description resolves, but the resolved description is the placeholder
"No description available" rather than the inserted empty string, so the
round-trip does not return the same description. -/
theorem C8_roundtrip_counterexample :
    admin_add_product [] 1 ⟨"Cap", "", "", "5", "", "", "", ""⟩ =
      [⟨1, "Cap", "", "", 5, "", "", "", "", "db"⟩] ∧
    find_product_by_key (admin_add_product [] 1 ⟨"Cap", "", "", "5", "", "", "", ""⟩)
        [] (fun _ _ => []) (slugify "Cap") =
      .ok (some ⟨some 1, "Cap", "cap", 5, placeholderImage,
        "No description available", [], "", ""⟩) ∧
    ("No description available" : String) ≠ "" :=
  ⟨by decide, by decide, by decide⟩

/-- C8 (amended): a manually added product whose stripped description is
nonempty, and whose slug no earlier table row shares, round-trips: the
resolver returns a product with exactly the inserted name, price and
description. -/
theorem C8_roundtrip_amended (db : List DbProduct) (nextId : Nat) (f : ProductForm)
    (cfgs : List SheetCfg) (records : String → String → List SheetRec)
    (hdesc : pyStrip f.description ≠ "")
    (hslug : ∀ p ∈ db, slugify p.name ≠ slugify (pyStrip f.name)) :
    ∃ q : Product,
      find_product_by_key (admin_add_product db nextId f) cfgs records
        (slugify (pyStrip f.name)) = .ok (some q) ∧
      q.name = pyStrip f.name ∧
      q.price = manualPrice (pyOr f.price "0") ∧
      q.description = pyStrip f.description := by
  have hnone : db.find? (dbMatches (slugify (pyStrip f.name))) = none := by
    rw [List.find?_eq_none]
    intro p hp
    simp only [dbMatches, Bool.or_eq_true, beq_iff_eq, not_or]
    exact ⟨fun h => hslug p hp h.symm, fun h => slug_ne_db (pyStrip f.name) p.id h⟩
  have hfind : (db ++ [(⟨nextId, pyStrip f.name, pyStrip f.type, pyStrip f.sizes,
        manualPrice (pyOr f.price "0"), pyStrip f.colors, pyStrip f.prints,
        pyStrip f.description, pyStrip f.image_url, "db"⟩ : DbProduct)]).find?
      (dbMatches (slugify (pyStrip f.name))) =
      some ⟨nextId, pyStrip f.name, pyStrip f.type, pyStrip f.sizes,
        manualPrice (pyOr f.price "0"), pyStrip f.colors, pyStrip f.prints,
        pyStrip f.description, pyStrip f.image_url, "db"⟩ := by
    rw [List.find?_append, hnone, Option.none_or]
    rw [List.find?_cons_of_pos _ (by simp [dbMatches])]
  refine ⟨normalizeDb
    ⟨nextId, pyStrip f.name, pyStrip f.type, pyStrip f.sizes,
      manualPrice (pyOr f.price "0"), pyStrip f.colors, pyStrip f.prints,
      pyStrip f.description, pyStrip f.image_url, "db"⟩ (slugify (pyStrip f.name)),
    ?_, rfl, rfl, ?_⟩
  · unfold find_product_by_key admin_add_product
    rw [dbScan_eq_find, hfind]
    rfl
  · show pyOr (pyStrip f.description) "No description available" = pyStrip f.description
    unfold pyOr
    rw [if_neg hdesc]

/-- Witness for C8: adding "Red Shirt" at 250 with description "Nice tee"
to an empty table and resolving "red-shirt" returns those exact fields. -/
theorem C8_roundtrip_amended_witness :
    ∃ q : Product,
      find_product_by_key
        (admin_add_product [] 1 ⟨"Red Shirt", "", "", "250", "", "", "Nice tee", ""⟩)
        [] (fun _ _ => []) (slugify (pyStrip "Red Shirt")) = .ok (some q) ∧
      q.name = pyStrip "Red Shirt" ∧
      q.price = manualPrice (pyOr "250" "0") ∧
      q.description = pyStrip "Nice tee" :=
  C8_roundtrip_amended [] 1 ⟨"Red Shirt", "", "", "250", "", "", "Nice tee", ""⟩ []
    (fun _ _ => []) (by decide) (by simp)

/-- A digit character built from a value below ten is a decimal digit. -/
theorem ofNat_digit_isDigit {m : Nat} (h : m < 10) : (Char.ofNat (48 + m)).isDigit = true := by
  interval_cases m <;> decide

/-- The code of a digit character recovers its construction. -/
theorem ofNat_digit_toNat {m : Nat} (h : m < 10) : (Char.ofNat (48 + m)).toNat = 48 + m := by
  interval_cases m <;> decide

/-- The fuel argument is irrelevant once it exceeds the number. -/
theorem natCharsAux_fuel : ∀ (fuel1 fuel2 n : Nat) (acc : List Char), n < fuel1 → n < fuel2 →
    natCharsAux fuel1 n acc = natCharsAux fuel2 n acc := by
  intro fuel1
  induction fuel1 with
  | zero => intro fuel2 n acc h1 _; omega
  | succ f1 ih =>
    intro fuel2 n acc h1 h2
    cases fuel2 with
    | zero => omega
    | succ f2 =>
      unfold natCharsAux
      by_cases hn : n < 10
      · rw [if_pos hn, if_pos hn]
      · rw [if_neg hn, if_neg hn]
        exact ih f2 (n / 10) _ (by omega) (by omega)

/-- The accumulator splits off of the digit rendering. -/
theorem natCharsAux_acc : ∀ (fuel n : Nat) (acc : List Char), n < fuel →
    natCharsAux fuel n acc = natCharsAux fuel n [] ++ acc := by
  intro fuel
  induction fuel with
  | zero => intro n acc h; omega
  | succ f ih =>
    intro n acc h
    unfold natCharsAux
    by_cases hn : n < 10
    · rw [if_pos hn, if_pos hn]
      rfl
    · rw [if_neg hn, if_neg hn]
      rw [ih (n / 10) _ (by omega), ih (n / 10) [Char.ofNat (48 + n % 10)] (by omega)]
      rw [List.append_assoc]
      rfl

/-- The one-step unfolding of the decimal rendering. -/
theorem natChars_eq (n : Nat) : natChars n =
    if n < 10 then [Char.ofNat (48 + n % 10)]
    else natChars (n / 10) ++ [Char.ofNat (48 + n % 10)] := by
  unfold natChars
  by_cases hn : n < 10
  · rw [if_pos hn]
    unfold natCharsAux
    rw [if_pos hn]
  · rw [if_neg hn]
    unfold natCharsAux
    rw [if_neg hn]
    rw [natCharsAux_fuel n (n / 10 + 1) (n / 10) _ (by omega) (by omega)]
    exact natCharsAux_acc (n / 10 + 1) (n / 10) _ (by omega)

/-- Every character of a decimal rendering is a digit. -/
theorem natChars_digits : ∀ n, ∀ c ∈ natChars n, c.isDigit = true := by
  intro n
  induction n using Nat.strong_induction_on with
  | _ n ih =>
    intro c hc
    rw [natChars_eq] at hc
    by_cases hn : n < 10
    · rw [if_pos hn] at hc
      rw [List.mem_singleton.mp hc]
      exact ofNat_digit_isDigit (Nat.mod_lt _ (by decide))
    · rw [if_neg hn] at hc
      rcases List.mem_append.mp hc with h | h
      · exact ih (n / 10) (by omega) c h
      · rw [List.mem_singleton.mp h]
        exact ofNat_digit_isDigit (Nat.mod_lt _ (by decide))

/-- Appending one digit multiplies the read value by ten. -/
theorem natOfDigitChars_snoc (l : List Char) (c : Char) :
    natOfDigitChars (l ++ [c]) = 10 * natOfDigitChars l + digitVal c := by
  unfold natOfDigitChars
  rw [List.foldl_append]
  rfl

/-- Reading back a decimal rendering recovers the number. -/
theorem natChars_val : ∀ n, natOfDigitChars (natChars n) = n := by
  intro n
  induction n using Nat.strong_induction_on with
  | _ n ih =>
    rw [natChars_eq]
    by_cases hn : n < 10
    · rw [if_pos hn]
      show natOfDigitChars [Char.ofNat (48 + n % 10)] = n
      unfold natOfDigitChars
      rw [List.foldl_cons, List.foldl_nil]
      unfold digitVal
      rw [ofNat_digit_toNat (Nat.mod_lt _ (by decide))]
      omega
    · rw [if_neg hn]
      rw [natOfDigitChars_snoc]
      rw [ih (n / 10) (by omega)]
      unfold digitVal
      rw [ofNat_digit_toNat (Nat.mod_lt _ (by decide))]
      omega

/-- Decimal renderings are injective. -/
theorem natChars_inj {m n : Nat} (h : natChars m = natChars n) : m = n := by
  have hm := natChars_val m
  rw [h, natChars_val] at hm
  omega

/-- A decimal rendering never contains a hyphen. -/
theorem natChars_ne_dash : ∀ n, ∀ c ∈ natChars n, c ≠ '-' := by
  intro n c hc heq
  have hd := natChars_digits n c hc
  rw [heq] at hd
  exact absurd hd (by decide)

/-- Splitting at the final hyphen: if the suffixes are hyphen-free, equal
concatenations have equal suffixes. -/
theorem append_dash_inj {s1 s2 t1 t2 : List Char}
    (h1 : ∀ c ∈ t1, c ≠ '-') (h2 : ∀ c ∈ t2, c ≠ '-')
    (h : s1 ++ '-' :: t1 = s2 ++ '-' :: t2) : t1 = t2 := by
  have hr : t1.reverse ++ '-' :: s1.reverse = t2.reverse ++ '-' :: s2.reverse := by
    have hrev := congrArg List.reverse h
    simp only [List.reverse_append, List.reverse_cons, List.append_assoc,
      List.singleton_append] at hrev
    exact hrev
  have htake : ∀ (t s : List Char), (∀ c ∈ t, c ≠ '-') →
      (t.reverse ++ '-' :: s).takeWhile (fun c => !(isDash c)) = t.reverse := by
    intro t s ht
    rw [List.takeWhile_append_of_pos]
    · rw [List.takeWhile_cons_of_neg (by simp [isDash])]
      exact List.append_nil _
    · intro c hc
      have : c ≠ '-' := ht c (List.mem_reverse.mp hc)
      simp [isDash, this]
  have ht12 : t1.reverse = t2.reverse := by
    rw [← htake t1 s1.reverse h1, ← htake t2 s2.reverse h2, hr]
  have := congrArg List.reverse ht12
  simpa using this

/-- C6 (counterexample): the slug the lookup path computes carries no
identifier suffix: the products (id 1, "Red Shirt") and (id 2,
"Red  Shirt") share the lookup slug "red-shirt", and resolving that slug
returns the id-1 product, leaving the id-2 product unreachable — the
lookup slug is not injective over distinct identifiers. -/
theorem C6_lookup_slug_counterexample :
    slugify "Red Shirt" = slugify "Red  Shirt" ∧ (1 : Nat) ≠ 2 ∧
    find_product_by_key
      [⟨1, "Red Shirt", "", "", 10, "", "", "", "", "db"⟩,
       ⟨2, "Red  Shirt", "", "", 20, "", "", "", "", "db"⟩] [] (fun _ _ => [])
      (slugify "Red  Shirt") =
      .ok (some ⟨some 1, "Red Shirt", "red-shirt", 10, placeholderImage,
        "No description available", [], "", ""⟩) :=
  ⟨by decide, by decide, by decide⟩

/-- C6 (amended): the suffixed slug that populate_slugs.py stores —
`slugify(name) + "-" + str(id)` — is injective in the identifier: any two
rows that receive the same stored slug have the same id.  The slug used by
the resolver's lookup omits this suffix and is not injective. -/
theorem C6_suffixed_slug_injective (n1 n2 : String) (id1 id2 : Nat)
    (h : slugWithId n1 id1 = slugWithId n2 id2) : id1 = id2 := by
  unfold slugWithId at h
  have hd : (slugifyPS n1).data ++ '-' :: natChars id1 =
      (slugifyPS n2).data ++ '-' :: natChars id2 := by
    have hdata := congrArg String.data h
    rw [String.data_append, String.data_append, String.data_append,
      String.data_append] at hdata
    simpa [List.append_assoc] using hdata
  exact natChars_inj (append_dash_inj (natChars_ne_dash id1) (natChars_ne_dash id2) hd)

/-- Witness for C6: "a b" and "a-b" share the base slug "a-b", so the
suffixed slugs "a-b-5" agree, and the theorem recovers the id equality. -/
theorem C6_suffixed_slug_injective_witness : (5 : Nat) = 5 :=
  C6_suffixed_slug_injective "a b" "a-b" 5 5 (by decide)

end Shop
